import Mathlib

/-!
Shallow embedding of the SCIENCEMENTOR session/quiz state store:
`src/backend/chat_history.py` (the `ChatHistoryDB` class) and the quiz
endpoints of `src/backend/app.py` (`start_quiz`, `submit_quiz_answer`,
`next_question`).

JSON values are modelled by `JVal`.  The `metadata` column of a session row
is modelled by `Option (Option Doc)`: `none` is a NULL (or empty) column,
`some none` is stored text that does not parse as a JSON object (the
corrupt-row case the code degrades to an empty document), and
`some (some d)` is stored text that parses to the document `d`.  Every write
stores `json.dumps` of a document, which always parses back to the same
document, so writes always produce `some (some d)`.

The quiz engine stores a structured object under the metadata key "quiz".
Metadata values are modelled by `MVal`, which keeps an engine-written quiz
object structured (`MVal.quiz`); JSON serialization round-trips such a value
unchanged, so this is observationally the stored representation.  A raw JSON
value sitting under the key "quiz" is never written by this program; the
Python code would re-interpret such a value dynamically as a dict, which is
not modelled (`HResp.crash`, an unhandled exception outcome).

Timestamps (`datetime.now()` / `CURRENT_TIMESTAMP` / `NOW()`) are modelled
as `Nat` logical clock values passed explicitly to the operations that read
the clock.  The fresh UUID of `create_session` is likewise passed in.
-/

inductive JVal where
  | null : JVal
  | bool : Bool → JVal
  | int : Int → JVal
  | str : String → JVal
  | arr : List JVal → JVal
  | obj : List (String × JVal) → JVal

/-- One quiz question, as produced by the LLM JSON and stored in the quiz
state (`app.py` start_quiz: fields question, options, correct_index,
explanation, subject; `explanation` is read with a default, hence optional). -/
structure Question where
  question : String
  options : List String
  correct_index : Int
  explanation : Option String
  subject : String
deriving DecidableEq

/-- One entry of the quiz `history` list (`app.py` submit_quiz_answer). -/
structure HistEntry where
  question_index : Nat
  selected : Int
  correct : Bool
deriving DecidableEq

/-- The quiz object stored at metadata key "quiz" (`app.py` start_quiz). -/
structure QuizState where
  questions : List Question
  current_index : Nat
  score : Nat
  completed : Bool
  history : List HistEntry
deriving DecidableEq

/-- A metadata value: either an arbitrary JSON value or an engine-written
quiz object (a JSON object kept structured, see the header comment). -/
inductive MVal where
  | jval : JVal → MVal
  | quiz : QuizState → MVal

/-- A JSON document: a Python dict from string keys to values, modelled as
an association list in insertion order (keys unique for program-written
documents). -/
abbrev Doc := List (String × MVal)

/-- Python truthiness of a JSON value (`if not quiz`, `if not subject`). -/
def JVal.falsy : JVal → Bool
  | .null => true
  | .bool b => !b
  | .int n => n == 0
  | .str s => s == ""
  | .arr xs => xs.isEmpty
  | .obj fs => fs.isEmpty

/-- Python truthiness of a metadata value.  An engine-written quiz object is
a dict with five keys, hence never falsy. -/
def MVal.falsy : MVal → Bool
  | .jval j => j.falsy
  | .quiz _ => false

/-- Python truthiness of an optional value (`None` is falsy). -/
def optTruthy : Option MVal → Bool
  | none => false
  | some v => !v.falsy

/-- Python `d.get(k)`: first (unique) binding of `k` in the dict. -/
def docGet : Doc → String → Option MVal
  | [], _ => none
  | p :: t, k => if p.1 == k then some p.2 else docGet t k

/-- Python `d[k] = v`: replace the binding of `k` in place, or append a new
binding (dict insertion order). -/
def docSet : Doc → String → MVal → Doc
  | [], k, v => [(k, v)]
  | p :: t, k, v => if p.1 == k then (k, v) :: t else p :: docSet t k v

/-- A row of the `messages` relation. -/
structure MessageRow where
  id : Nat
  session_id : String
  role : String
  content : String
  provider : Option String
  created_at : Nat
deriving DecidableEq

/-- A row of the `sessions` relation (metadata column as in the header). -/
structure SessionRow where
  id : String
  title : Option String
  created_at : Nat
  updated_at : Nat
  metadata : Option (Option Doc)

/-- The database state: the two relations plus the `messages` autoincrement
counter.  `messages` is kept in insertion (id) order. -/
structure DB where
  sessions : List SessionRow
  messages : List MessageRow
  next_msg_id : Nat

/-- The projection of a message row returned by `get_session_messages`
(SELECT role, content, provider, created_at). -/
structure MessageOut where
  role : String
  content : String
  provider : Option String
  created_at : Nat
deriving DecidableEq

/-- `SELECT ... FROM sessions WHERE id = ?` point lookup. -/
def findSession (db : DB) (sid : String) : Option SessionRow :=
  db.sessions.find? (fun s => s.id == sid)

/-- `chat_history.py` session_exists. -/
def session_exists (db : DB) (sid : String) : Bool :=
  (findSession db sid).isSome

/-- `json.loads(row) if row else {}` under `try/except: {}`: NULL, empty or
unparseable stored metadata degrades to the empty document. -/
def parseMeta : Option (Option Doc) → Doc
  | some (some d) => d
  | _ => []

/-- `chat_history.py` get_session_metadata: `{}` when the session row is
missing, otherwise the parsed metadata column (empty on NULL/corrupt). -/
def get_session_metadata (db : DB) (sid : String) : Doc :=
  match findSession db sid with
  | none => []
  | some s => parseMeta s.metadata

/-- `chat_history.py` get_session_subject: `None` when the row is missing,
the column is NULL/empty, or parsing fails; else `metadata.get("subject")`. -/
def get_session_subject (db : DB) (sid : String) : Option MVal :=
  match findSession db sid with
  | none => none
  | some s =>
    match s.metadata with
    | none => none
    | some none => none
    | some (some d) => docGet d "subject"

/-- `chat_history.py` update_session_metadata: read the row (False when
missing), parse the document (empty on NULL/corrupt), set the key, write the
document back and bump `updated_at`. -/
def update_session_metadata (db : DB) (sid : String) (key : String) (value : MVal)
    (now : Nat) : Bool × DB :=
  match findSession db sid with
  | none => (false, db)
  | some _ =>
    (true, { db with sessions := db.sessions.map (fun s =>
        if s.id == sid then
          { s with metadata := some (some (docSet (parseMeta s.metadata) key value)),
                   updated_at := now }
        else s) })

/-- `chat_history.py` add_message: insert a message row with the next
autoincrement id and the current timestamp, then bump the owning session's
`updated_at`.  Returns the new message id. -/
def add_message (db : DB) (sid : String) (role : String) (content : String)
    (provider : Option String) (now : Nat) : Nat × DB :=
  let mid := db.next_msg_id
  (mid, { db with
    messages := db.messages ++ [⟨mid, sid, role, content, provider, now⟩],
    next_msg_id := mid + 1,
    sessions := db.sessions.map (fun s =>
      if s.id == sid then { s with updated_at := now } else s) })

/-- The key order realized by `ORDER BY created_at DESC` on the
`(session_id, created_at)` index: rows come back in descending
`(created_at, id)` lexicographic order, i.e. ties in `created_at` are broken
by the autoincrement id.  `msgLE` is the ascending form of that key order. -/
def msgLE (a b : MessageRow) : Prop :=
  a.created_at < b.created_at ∨ (a.created_at = b.created_at ∧ a.id ≤ b.id)

instance : DecidableRel msgLE := fun a b => by
  unfold msgLE; infer_instance

/-- `chat_history.py` get_session_messages: the session's rows, most recent
`limit` of them newest-first (`ORDER BY created_at DESC LIMIT ?`), reversed
into chronological order, projected to role/content/provider/created_at. -/
def get_session_messages (db : DB) (sid : String) (limit : Nat) : List MessageOut :=
  let rows := db.messages.filter (fun m => m.session_id == sid)
  let newestFirst := (List.insertionSort msgLE rows).reverse
  ((newestFirst.take limit).reverse).map (fun m =>
    ⟨m.role, m.content, m.provider, m.created_at⟩)

/-- `chat_history.py` delete_session: False without side effects when the
session is missing; else delete the session's messages, then the session
row, and return True. -/
def delete_session (db : DB) (sid : String) : Bool × DB :=
  if session_exists db sid then
    (true, { db with
      messages := db.messages.filter (fun m => !(m.session_id == sid)),
      sessions := db.sessions.filter (fun s => !(s.id == sid)) })
  else (false, db)

/-- `chat_history.py` create_session: insert a fresh row with NULL title,
current timestamps and the given metadata (`json.dumps(metadata) if metadata
else None`: an absent or empty dict is stored as NULL). -/
def create_session (db : DB) (sid : String) (metadata : Option Doc) (now : Nat) : DB :=
  { db with sessions := db.sessions ++
      [⟨sid, none, now, now,
        match metadata with
        | some d => if d.isEmpty then none else some (some d)
        | none => none⟩] }

/-- An HTTP-level outcome of an endpoint: a `(status, jsonify-body)` reply,
or an unhandled Python exception (`crash`). -/
inductive HResp where
  | resp : Nat → Doc → HResp
  | crash : HResp

/-- Body `{"error": msg}`. -/
def errBody (msg : String) : Doc := [("error", .jval (.str msg))]

/-- The question payload returned by `start_quiz` (answer key withheld). -/
def questionBody (q : Question) (idx : Nat) (total : Nat) : Doc :=
  [("question", .jval (.str q.question)),
   ("options", .jval (.arr (q.options.map JVal.str))),
   ("index", .jval (.int (idx : Int))),
   ("total", .jval (.int (total : Int)))]

/-- The non-completing payload returned by `next_question`. -/
def nextQuestionBody (q : Question) (idx : Nat) (total : Nat) : Doc :=
  ("completed", .jval (.bool false)) :: questionBody q idx total

/-- The completion summary returned by `next_question`. -/
def completionBody (score : Nat) (total : Nat) : Doc :=
  [("completed", .jval (.bool true)),
   ("score", .jval (.int (score : Int))),
   ("total", .jval (.int (total : Int))),
   ("summary", .jval (.str ("You scored " ++ toString score ++ " out of "
      ++ toString total ++ "!")))]

/-- The payload returned by `submit_quiz_answer` (discloses the answer key). -/
def submitBody (is_correct : Bool) (ci : Int) (expl : String) (score : Nat) : Doc :=
  [("is_correct", .jval (.bool is_correct)),
   ("correct_index", .jval (.int ci)),
   ("explanation", .jval (.str expl)),
   ("score", .jval (.int (score : Int)))]

/-- The value stored under the metadata key "quiz" for a session, as seen
through `get_session_metadata`. -/
def quizAt (db : DB) (sid : String) : Option MVal :=
  docGet (get_session_metadata db sid) "quiz"

/-- `app.py` start_quiz.  The LLM round trip and JSON extraction are
external input, modelled by the already-parsed `questions` list (an empty
parse result raises and is answered with the generic 500, like any other
generation failure). -/
def start_quiz (db : DB) (sid : String) (questions : List Question) (now : Nat) :
    HResp × DB :=
  if sid == "" then (.resp 400 (errBody "Session ID required"), db)
  else if !session_exists db sid then (.resp 404 (errBody "Session not found"), db)
  else if !optTruthy (get_session_subject db sid) then
    (.resp 400 (errBody "Session has no selected subject. Please start a new chat."), db)
  else if questions.isEmpty then
    (.resp 500 (errBody "Failed to generate quiz. Please try again."), db)
  else
    let qs := questions.take 10
    let quiz : QuizState := ⟨qs, 0, 0, false, []⟩
    let r := update_session_metadata db sid "quiz" (.quiz quiz) now
    if !r.1 then (.resp 500 (errBody "Failed to save quiz state"), r.2)
    else
      match qs with
      | [] => (.resp 500 (errBody "Failed to generate quiz. Please try again."), r.2)
      | q0 :: _ => (.resp 200 (questionBody q0 0 qs.length), r.2)

/-- `app.py` submit_quiz_answer.  `answer_index` is `data.get("answer_index")`
(`none` models an absent parameter). -/
def submit_quiz_answer (db : DB) (sid : String) (answer_index : Option Int)
    (now : Nat) : HResp × DB :=
  if sid == "" || answer_index.isNone then
    (.resp 400 (errBody "Missing parameters"), db)
  else
    let a := answer_index.getD 0
    match docGet (get_session_metadata db sid) "quiz" with
    | none => (.resp 400 (errBody "No active quiz found"), db)
    | some v =>
      if MVal.falsy v then (.resp 400 (errBody "No active quiz found"), db)
      else
        match v with
        | .jval _ => (.crash, db)
        | .quiz q =>
          if q.completed then (.resp 400 (errBody "No active quiz found"), db)
          else if q.questions.length ≤ q.current_index then
            (.resp 400 (errBody "Quiz already finished"), db)
          else
            match q.questions[q.current_index]? with
            | none => (.crash, db)
            | some cq =>
              let is_correct := a == cq.correct_index
              let q' : QuizState :=
                { q with
                  history := q.history ++ [⟨q.current_index, a, is_correct⟩],
                  score := if is_correct then q.score + 1 else q.score }
              let r := update_session_metadata db sid "quiz" (.quiz q') now
              (.resp 200 (submitBody is_correct cq.correct_index
                  (cq.explanation.getD "No explanation provided.") q'.score), r.2)

/-- `app.py` next_question: increment `current_index`, persist, and either
report completion (persisting `completed = True`) or return the next
question with the answer key withheld. -/
def next_question (db : DB) (sid : String) (now : Nat) : HResp × DB :=
  if sid == "" then (.resp 400 (errBody "Session ID required"), db)
  else
    match docGet (get_session_metadata db sid) "quiz" with
    | none => (.resp 400 (errBody "No active quiz"), db)
    | some v =>
      if MVal.falsy v then (.resp 400 (errBody "No active quiz"), db)
      else
        match v with
        | .jval _ => (.crash, db)
        | .quiz q =>
          let q1 : QuizState := { q with current_index := q.current_index + 1 }
          let r1 := update_session_metadata db sid "quiz" (.quiz q1) now
          if q1.questions.length ≤ q1.current_index then
            let q2 : QuizState := { q1 with completed := true }
            let r2 := update_session_metadata r1.2 sid "quiz" (.quiz q2) now
            (.resp 200 (completionBody q2.score q1.questions.length), r2.2)
          else
            match q1.questions[q1.current_index]? with
            | none => (.crash, r1.2)
            | some nq =>
              (.resp 200 (nextQuestionBody nq q1.current_index q1.questions.length), r1.2)

/-- Iterated `next_question` on one session: `advanceN sid now k db` is the
state after `k` advance calls. -/
def advanceN (sid : String) (now : Nat) : Nat → DB → DB
  | 0, db => db
  | k + 1, db => (next_question (advanceN sid now k db) sid now).2

/-- Iterated `submit_quiz_answer` on one session, one call per listed answer. -/
def submitN (sid : String) (now : Nat) : List Int → DB → DB
  | [], db => db
  | a :: rest, db => submitN sid now rest (submit_quiz_answer db sid (some a) now).2

/-- One `add_message` call of a trace: the role, content, provider and the
clock value at the call. -/
structure AppendCall where
  role : String
  content : String
  provider : Option String
  time : Nat
deriving DecidableEq

/-- Iterated `add_message` on one session, one call per trace entry. -/
def appendAll (db : DB) (sid : String) : List AppendCall → DB
  | [] => db
  | c :: rest => appendAll (add_message db sid c.role c.content c.provider c.time).2 sid rest

/-- The message rows a trace of `add_message` calls creates, starting at a
given autoincrement id. -/
def mkRows (sid : String) (startId : Nat) : List AppendCall → List MessageRow
  | [] => []
  | c :: rest => ⟨startId, sid, c.role, c.content, c.provider, c.time⟩ ::
      mkRows sid (startId + 1) rest

/-- The projection of an append call as `get_session_messages` reports it. -/
def callOut (c : AppendCall) : MessageOut :=
  ⟨c.role, c.content, c.provider, c.time⟩

/-! ### Concrete fixtures, used to instantiate the theorems on closed inputs -/

/-- A sample question. -/
def qA : Question := ⟨"Q1", ["a", "b", "c", "d"], 1, some "E1", "Biology"⟩

/-- Another sample question. -/
def qB : Question := ⟨"Q2", ["e", "f", "g", "h"], 2, none, "Physics"⟩

/-- A one-session database whose session "s" has the given metadata column. -/
def dbWith (md : Option (Option Doc)) : DB := ⟨[⟨"s", none, 0, 0, md⟩], [], 1⟩

/-- A database whose session "s" has a subject and no quiz. -/
def dbSubj : DB := dbWith (some (some [("subject", .jval (.str "Biology"))]))

/-- A database whose session "s" has a subject and the given quiz state. -/
def dbQuiz (q : QuizState) : DB :=
  dbWith (some (some [("subject", .jval (.str "Biology")), ("quiz", .quiz q)]))

/-- A database with no sessions at all. -/
def dbNone : DB := ⟨[], [], 1⟩

/-! ### Dictionary lemmas -/

theorem docGet_docSet_self (d : Doc) (k : String) (v : MVal) :
    docGet (docSet d k v) k = some v := by
  induction d with
  | nil => simp [docSet, docGet]
  | cons p t ih =>
    by_cases h : p.1 == k
    · simp [docSet, docGet, h]
    · simp [docSet, docGet, h, ih]

theorem docGet_docSet_other (d : Doc) (k k' : String) (v : MVal) (h : k' ≠ k) :
    docGet (docSet d k v) k' = docGet d k' := by
  have hk : (k == k') = false := by simp [beq_eq_false_iff_ne]; exact fun e => h e.symm
  induction d with
  | nil => simp [docSet, docGet, hk]
  | cons p t ih =>
    by_cases hp : p.1 == k
    · have hp1 : p.1 = k := by simpa [beq_iff_eq] using hp
      have hpk : (p.1 == k') = false := by
        subst hp1; exact hk
      simp [docSet, docGet, hp, hk, hpk]
    · simp [docSet, docGet, hp, ih]

/-! ### Lemmas about `update_session_metadata` -/

theorem find?_map_id_preserving (l : List SessionRow) (f : SessionRow → SessionRow)
    (hf : ∀ s, (f s).id = s.id) (sid : String) :
    (l.map f).find? (fun s => s.id == sid) = (l.find? (fun s => s.id == sid)).map f := by
  induction l with
  | nil => rfl
  | cons a t ih =>
    by_cases h : (a.id == sid)
    · simp [List.find?_cons, hf, h]
    · simp [List.find?_cons, hf, h, ih]

theorem usm_not_found (db : DB) (sid k : String) (v : MVal) (now : Nat)
    (h : findSession db sid = none) :
    update_session_metadata db sid k v now = (false, db) := by
  unfold update_session_metadata
  rw [h]

theorem usm_messages (db : DB) (sid k : String) (v : MVal) (now : Nat) :
    (update_session_metadata db sid k v now).2.messages = db.messages := by
  unfold update_session_metadata
  cases h : findSession db sid <;> rfl

theorem usm_next_msg_id (db : DB) (sid k : String) (v : MVal) (now : Nat) :
    (update_session_metadata db sid k v now).2.next_msg_id = db.next_msg_id := by
  unfold update_session_metadata
  cases h : findSession db sid <;> rfl

theorem usm_find (db : DB) (sid k : String) (v : MVal) (now : Nat) (s : SessionRow)
    (hs : findSession db sid = some s) (sid' : String) :
    findSession (update_session_metadata db sid k v now).2 sid' =
      (findSession db sid').map (fun t =>
        if t.id == sid then
          { t with metadata := some (some (docSet (parseMeta t.metadata) k v)),
                   updated_at := now }
        else t) := by
  unfold update_session_metadata
  rw [hs]
  unfold findSession
  exact find?_map_id_preserving _ _ (fun t => by split <;> rfl) sid'

theorem usm_session_exists (db : DB) (sid k : String) (v : MVal) (now : Nat)
    (sid' : String) :
    session_exists (update_session_metadata db sid k v now).2 sid' =
      session_exists db sid' := by
  cases hs : findSession db sid with
  | none => rw [usm_not_found db sid k v now hs]
  | some s =>
    unfold session_exists
    rw [usm_find db sid k v now s hs sid']
    cases findSession db sid' <;> rfl

theorem usm_ret_true (db : DB) (sid k : String) (v : MVal) (now : Nat)
    (hex : session_exists db sid = true) :
    (update_session_metadata db sid k v now).1 = true := by
  unfold session_exists at hex
  obtain ⟨s, hs⟩ := Option.isSome_iff_exists.mp hex
  unfold update_session_metadata
  rw [hs]

theorem usm_get_self (db : DB) (sid k : String) (v : MVal) (now : Nat)
    (hex : session_exists db sid = true) :
    get_session_metadata (update_session_metadata db sid k v now).2 sid =
      docSet (get_session_metadata db sid) k v := by
  unfold session_exists at hex
  obtain ⟨s, hs⟩ := Option.isSome_iff_exists.mp hex
  have hs' : db.sessions.find? (fun t => t.id == sid) = some s := hs
  have hid : (s.id == sid) = true := by
    have h2 := List.find?_some hs'
    simpa using h2
  unfold get_session_metadata
  rw [usm_find db sid k v now s hs sid, hs]
  have hideq : s.id = sid := by simpa using hid
  simp [hideq, parseMeta]

theorem quizAt_usm (db : DB) (sid : String) (v : MVal) (now : Nat)
    (hex : session_exists db sid = true) :
    quizAt (update_session_metadata db sid "quiz" v now).2 sid = some v := by
  unfold quizAt
  rw [usm_get_self db sid "quiz" v now hex, docGet_docSet_self]

/-! ### Step lemmas for the quiz endpoints -/

theorem submit_no_quiz (db : DB) (sid : String) (a : Int) (now : Nat)
    (hsid : sid ≠ "") (hq : quizAt db sid = none) :
    submit_quiz_answer db sid (some a) now =
      (.resp 400 (errBody "No active quiz found"), db) := by
  have h0 : (sid == "") = false := by simp [hsid]
  have hq' : docGet (get_session_metadata db sid) "quiz" = none := hq
  simp [submit_quiz_answer, h0, hq']

theorem submit_completed (db : DB) (sid : String) (q : QuizState) (a : Int) (now : Nat)
    (hsid : sid ≠ "") (hq : quizAt db sid = some (.quiz q)) (hc : q.completed = true) :
    submit_quiz_answer db sid (some a) now =
      (.resp 400 (errBody "No active quiz found"), db) := by
  have h0 : (sid == "") = false := by simp [hsid]
  have hq' : docGet (get_session_metadata db sid) "quiz" = some (.quiz q) := hq
  simp [submit_quiz_answer, h0, hq', MVal.falsy, hc]

theorem submit_finished (db : DB) (sid : String) (q : QuizState) (a : Int) (now : Nat)
    (hsid : sid ≠ "") (hq : quizAt db sid = some (.quiz q)) (hc : q.completed = false)
    (hge : q.questions.length ≤ q.current_index) :
    submit_quiz_answer db sid (some a) now =
      (.resp 400 (errBody "Quiz already finished"), db) := by
  have h0 : (sid == "") = false := by simp [hsid]
  have hq' : docGet (get_session_metadata db sid) "quiz" = some (.quiz q) := hq
  simp [submit_quiz_answer, h0, hq', MVal.falsy, hc, hge]

theorem submit_step (db : DB) (sid : String) (q : QuizState) (a : Int) (now : Nat)
    (hsid : sid ≠ "") (hex : session_exists db sid = true)
    (hq : quizAt db sid = some (.quiz q)) (hc : q.completed = false)
    (hi : q.current_index < q.questions.length) :
    ∃ cq, q.questions[q.current_index]? = some cq ∧
      submit_quiz_answer db sid (some a) now =
        (.resp 200 (submitBody (a == cq.correct_index) cq.correct_index
            (cq.explanation.getD "No explanation provided.")
            (if a == cq.correct_index then q.score + 1 else q.score)),
         (update_session_metadata db sid "quiz"
            (.quiz { q with
                history := q.history ++ [⟨q.current_index, a, a == cq.correct_index⟩],
                score := if a == cq.correct_index then q.score + 1 else q.score }) now).2) ∧
      session_exists (submit_quiz_answer db sid (some a) now).2 sid = true ∧
      quizAt (submit_quiz_answer db sid (some a) now).2 sid =
        some (.quiz { q with
            history := q.history ++ [⟨q.current_index, a, a == cq.correct_index⟩],
            score := if a == cq.correct_index then q.score + 1 else q.score }) := by
  have h0 : (sid == "") = false := by simp [hsid]
  have hq' : docGet (get_session_metadata db sid) "quiz" = some (.quiz q) := hq
  obtain ⟨cq, hcq⟩ : ∃ cq, q.questions[q.current_index]? = some cq :=
    ⟨_, List.getElem?_eq_getElem hi⟩
  have hnotge : ¬ q.questions.length ≤ q.current_index := Nat.not_le.mpr hi
  refine ⟨cq, hcq, ?_⟩
  have heq : submit_quiz_answer db sid (some a) now =
      (.resp 200 (submitBody (a == cq.correct_index) cq.correct_index
          (cq.explanation.getD "No explanation provided.")
          (if a == cq.correct_index then q.score + 1 else q.score)),
       (update_session_metadata db sid "quiz"
          (.quiz { q with
              history := q.history ++ [⟨q.current_index, a, a == cq.correct_index⟩],
              score := if a == cq.correct_index then q.score + 1 else q.score }) now).2) := by
    simp [submit_quiz_answer, h0, hq', MVal.falsy, hc, hnotge, hcq]
  refine ⟨heq, ?_, ?_⟩
  · rw [heq]
    simpa [usm_session_exists] using hex
  · rw [heq]
    exact quizAt_usm db sid _ now hex

theorem next_no_quiz (db : DB) (sid : String) (now : Nat)
    (hsid : sid ≠ "") (hq : quizAt db sid = none) :
    next_question db sid now = (.resp 400 (errBody "No active quiz"), db) := by
  have h0 : (sid == "") = false := by simp [hsid]
  have hq' : docGet (get_session_metadata db sid) "quiz" = none := hq
  simp [next_question, h0, hq']

theorem next_step_mid (db : DB) (sid : String) (q : QuizState) (now : Nat)
    (hsid : sid ≠ "") (hex : session_exists db sid = true)
    (hq : quizAt db sid = some (.quiz q))
    (hlt : q.current_index + 1 < q.questions.length) :
    ∃ nq, q.questions[q.current_index + 1]? = some nq ∧
      next_question db sid now =
        (.resp 200 (nextQuestionBody nq (q.current_index + 1) q.questions.length),
         (update_session_metadata db sid "quiz"
            (.quiz { q with current_index := q.current_index + 1 }) now).2) ∧
      session_exists (next_question db sid now).2 sid = true ∧
      quizAt (next_question db sid now).2 sid =
        some (.quiz { q with current_index := q.current_index + 1 }) := by
  have h0 : (sid == "") = false := by simp [hsid]
  have hq' : docGet (get_session_metadata db sid) "quiz" = some (.quiz q) := hq
  obtain ⟨nq, hnq⟩ : ∃ nq, q.questions[q.current_index + 1]? = some nq :=
    ⟨_, List.getElem?_eq_getElem hlt⟩
  have hnotge : ¬ q.questions.length ≤ q.current_index + 1 := Nat.not_le.mpr hlt
  refine ⟨nq, hnq, ?_⟩
  have heq : next_question db sid now =
      (.resp 200 (nextQuestionBody nq (q.current_index + 1) q.questions.length),
       (update_session_metadata db sid "quiz"
          (.quiz { q with current_index := q.current_index + 1 }) now).2) := by
    simp [next_question, h0, hq', MVal.falsy, hnotge, hnq]
  refine ⟨heq, ?_, ?_⟩
  · rw [heq]
    simpa [usm_session_exists] using hex
  · rw [heq]
    exact quizAt_usm db sid _ now hex

theorem next_step_done (db : DB) (sid : String) (q : QuizState) (now : Nat)
    (hsid : sid ≠ "") (hex : session_exists db sid = true)
    (hq : quizAt db sid = some (.quiz q))
    (hge : q.questions.length ≤ q.current_index + 1) :
    next_question db sid now =
      (.resp 200 (completionBody q.score q.questions.length),
       (update_session_metadata
          (update_session_metadata db sid "quiz"
             (.quiz { q with current_index := q.current_index + 1 }) now).2
          sid "quiz"
          (.quiz { q with current_index := q.current_index + 1, completed := true })
          now).2) ∧
      session_exists (next_question db sid now).2 sid = true ∧
      quizAt (next_question db sid now).2 sid =
        some (.quiz { q with current_index := q.current_index + 1, completed := true }) := by
  have h0 : (sid == "") = false := by simp [hsid]
  have hq' : docGet (get_session_metadata db sid) "quiz" = some (.quiz q) := hq
  have heq : next_question db sid now =
      (.resp 200 (completionBody q.score q.questions.length),
       (update_session_metadata
          (update_session_metadata db sid "quiz"
             (.quiz { q with current_index := q.current_index + 1 }) now).2
          sid "quiz"
          (.quiz { q with current_index := q.current_index + 1, completed := true })
          now).2) := by
    simp [next_question, h0, hq', MVal.falsy, hge]
  have hex1 : session_exists (update_session_metadata db sid "quiz"
      (.quiz { q with current_index := q.current_index + 1 }) now).2 sid = true := by
    simpa [usm_session_exists] using hex
  refine ⟨heq, ?_, ?_⟩
  · rw [heq]
    simpa [usm_session_exists] using hex
  · rw [heq]
    exact quizAt_usm _ sid _ now hex1

theorem start_no_subject (db : DB) (sid : String) (qs : List Question) (now : Nat)
    (hsid : sid ≠ "") (hex : session_exists db sid = true)
    (hsub : optTruthy (get_session_subject db sid) = false) :
    start_quiz db sid qs now =
      (.resp 400 (errBody "Session has no selected subject. Please start a new chat."),
       db) := by
  have h0 : (sid == "") = false := by simp [hsid]
  simp [start_quiz, h0, hex, hsub]

theorem start_success (db : DB) (sid : String) (qs : List Question) (q0 : Question)
    (now : Nat) (hsid : sid ≠ "") (hex : session_exists db sid = true)
    (hsub : optTruthy (get_session_subject db sid) = true)
    (hq0 : qs[0]? = some q0) :
    start_quiz db sid qs now =
      (.resp 200 (questionBody q0 0 (qs.take 10).length),
       (update_session_metadata db sid "quiz"
          (.quiz ⟨qs.take 10, 0, 0, false, []⟩) now).2) ∧
    session_exists (start_quiz db sid qs now).2 sid = true ∧
    quizAt (start_quiz db sid qs now).2 sid =
      some (.quiz ⟨qs.take 10, 0, 0, false, []⟩) := by
  have h0 : (sid == "") = false := by simp [hsid]
  cases qs with
  | nil => simp at hq0
  | cons qh qt =>
    have hq0' : qh = q0 := by simpa using hq0
    subst hq0'
    have hr1 : (update_session_metadata db sid "quiz"
        (.quiz ⟨qh :: qt.take 9, 0, 0, false, []⟩) now).1 = true :=
      usm_ret_true db sid "quiz" _ now hex
    have heq : start_quiz db sid (qh :: qt) now =
        (.resp 200 (questionBody qh 0 ((qh :: qt).take 10).length),
         (update_session_metadata db sid "quiz"
            (.quiz ⟨(qh :: qt).take 10, 0, 0, false, []⟩) now).2) := by
      simp [start_quiz, h0, hex, hsub, List.take, hr1]
    refine ⟨heq, ?_, ?_⟩
    · rw [heq]
      simpa [usm_session_exists] using hex
    · rw [heq]
      have := quizAt_usm db sid (.quiz ⟨(qh :: qt).take 10, 0, 0, false, []⟩) now hex
      simpa [List.take] using this

/-! ### Message ordering -/

/-- Strict form of the `(created_at, id)` key order; the stored `messages`
list of a reachable database is strictly increasing in this order (ids are
autoincremented and the clock never goes backwards). -/
def msgLT (a b : MessageRow) : Prop :=
  a.created_at < b.created_at ∨ (a.created_at = b.created_at ∧ a.id < b.id)

theorem msgLT_le {a b : MessageRow} (h : msgLT a b) : msgLE a b := by
  rcases h with h | ⟨h1, h2⟩
  · exact Or.inl h
  · exact Or.inr ⟨h1, Nat.le_of_lt h2⟩

theorem reverse_take_reverse {α : Type} (l : List α) (n : Nat) :
    (l.reverse.take n).reverse = l.drop (l.length - n) := by
  have h := List.reverse_take (l := l.reverse) (n := n)
  simpa using h

/-- On a database whose message list is strictly sorted by `(created_at, id)`,
`get_session_messages` returns exactly the suffix of the session's rows of
length `limit` (all of them if `limit` is larger), oldest first. -/
theorem get_session_messages_of_sorted (db : DB) (sid : String) (limit : Nat)
    (hwf : db.messages.Pairwise msgLT) :
    get_session_messages db sid limit =
      ((db.messages.filter (fun m => m.session_id == sid)).drop
        ((db.messages.filter (fun m => m.session_id == sid)).length - limit)).map
        (fun m => ⟨m.role, m.content, m.provider, m.created_at⟩) := by
  simp only [get_session_messages]
  have hrows : (db.messages.filter (fun m => m.session_id == sid)).Pairwise msgLT :=
    hwf.sublist (List.filter_sublist _)
  have hsorted : List.Sorted msgLE (db.messages.filter (fun m => m.session_id == sid)) :=
    hrows.imp (fun h => msgLT_le h)
  rw [hsorted.insertionSort_eq, reverse_take_reverse]

theorem appendAll_messages (db : DB) (sid : String) (calls : List AppendCall) :
    (appendAll db sid calls).messages = db.messages ++ mkRows sid db.next_msg_id calls ∧
    (appendAll db sid calls).next_msg_id = db.next_msg_id + calls.length := by
  induction calls generalizing db with
  | nil => simp [appendAll, mkRows]
  | cons c rest ih =>
    have h := ih (add_message db sid c.role c.content c.provider c.time).2
    simp only [appendAll, add_message] at h ⊢
    obtain ⟨h1, h2⟩ := h
    constructor
    · rw [h1]
      simp [mkRows]
    · rw [h2]
      simp [mkRows]
      omega

theorem mkRows_mem (sid : String) (j : Nat) (cs : List AppendCall) :
    ∀ r ∈ mkRows sid j cs,
      r.session_id = sid ∧ j ≤ r.id ∧ ∃ c ∈ cs, r.created_at = c.time := by
  induction cs generalizing j with
  | nil => intro r hr; simp [mkRows] at hr
  | cons c rest ih =>
    intro r hr
    rcases (by simpa [mkRows] using hr :
        r = (⟨j, sid, c.role, c.content, c.provider, c.time⟩ : MessageRow) ∨
          r ∈ mkRows sid (j + 1) rest) with h | h
    · subst h
      exact ⟨rfl, Nat.le_refl _, c, by simp, rfl⟩
    · obtain ⟨hs, hj, c2, hc2, ht⟩ := ih (j + 1) r h
      exact ⟨hs, by omega, c2, by simp [hc2], ht⟩

theorem mkRows_pairwise (sid : String) (j : Nat) (cs : List AppendCall)
    (h : cs.Pairwise (fun a b => a.time ≤ b.time)) :
    (mkRows sid j cs).Pairwise msgLT := by
  induction cs generalizing j with
  | nil => simp [mkRows]
  | cons c rest ih =>
    rw [mkRows]
    rw [List.pairwise_cons] at h ⊢
    refine ⟨?_, ih (j + 1) h.2⟩
    intro r hr
    obtain ⟨hs, hj, c2, hc2, ht⟩ := mkRows_mem sid (j + 1) rest r hr
    have hle : c.time ≤ c2.time := h.1 c2 hc2
    unfold msgLT
    rcases Nat.lt_or_ge c.time c2.time with hlt | hge
    · left
      simpa [ht] using hlt
    · right
      have : c.time = c2.time := Nat.le_antisymm hle hge
      refine ⟨by simp [ht, this], ?_⟩
      simpa using hj

theorem mkRows_filter_self (sid : String) (j : Nat) (cs : List AppendCall) :
    (mkRows sid j cs).filter (fun m => m.session_id == sid) = mkRows sid j cs := by
  induction cs generalizing j with
  | nil => simp [mkRows]
  | cons c rest ih => simp [mkRows, ih]

theorem mkRows_length (sid : String) (j : Nat) (cs : List AppendCall) :
    (mkRows sid j cs).length = cs.length := by
  induction cs generalizing j with
  | nil => simp [mkRows]
  | cons c rest ih => simp [mkRows, ih]

theorem mkRows_map_out (sid : String) (j : Nat) (cs : List AppendCall) :
    (mkRows sid j cs).map
        (fun m => (⟨m.role, m.content, m.provider, m.created_at⟩ : MessageOut)) =
      cs.map callOut := by
  induction cs generalizing j with
  | nil => simp [mkRows]
  | cons c rest ih => simp [mkRows, ih, callOut]

/-! ### Frame lemmas: the quiz endpoints never touch the message log -/

theorem start_messages (db : DB) (sid : String) (qs : List Question) (now : Nat) :
    (start_quiz db sid qs now).2.messages = db.messages := by
  simp only [start_quiz]
  repeat' split
  all_goals first
  | rfl
  | simp [usm_messages]

theorem submit_messages (db : DB) (sid : String) (a : Option Int) (now : Nat) :
    (submit_quiz_answer db sid a now).2.messages = db.messages := by
  simp only [submit_quiz_answer]
  repeat' split
  all_goals first
  | rfl
  | simp [usm_messages]

theorem next_messages (db : DB) (sid : String) (now : Nat) :
    (next_question db sid now).2.messages = db.messages := by
  simp only [next_question]
  repeat' split
  all_goals first
  | rfl
  | simp [usm_messages]

theorem gsm_congr (db db2 : DB) (sid : String) (limit : Nat)
    (h : db.messages = db2.messages) :
    get_session_messages db sid limit = get_session_messages db2 sid limit := by
  unfold get_session_messages
  rw [h]

/-! ### Helper lemmas for deletion -/

theorem filter_not_filter {α : Type} (l : List α) (p : α → Bool) :
    (l.filter (fun a => !(p a))).filter p = [] := by
  induction l with
  | nil => rfl
  | cons a t ih => by_cases h : p a <;> simp [h, ih]

theorem find?_filter_not {α : Type} (l : List α) (p : α → Bool) :
    (l.filter (fun a => !(p a))).find? p = none := by
  induction l with
  | nil => rfl
  | cons a t ih => by_cases h : p a <;> simp [h, ih, List.find?]

/-! ### Claim theorems -/

/-- Claim C3: failed quiz-mutation preconditions signal an explicit failure
and mutate nothing.  `submitAnswer` with no quiz, with a completed quiz, or
with `current_index >= len(questions)` answers 400 and returns the database
unchanged (score, history, current_index and all session metadata intact);
`start` on a session whose subject is empty or absent answers 400 with the
"no subject" error and returns the database unchanged. -/
theorem quiz_precondition_failures_no_mutation
    (db1 db2 db3 db4 : DB) (sid : String) (a : Int) (qs : List Question)
    (q2 q3 : QuizState) (now : Nat) (hsid : sid ≠ "")
    (h1 : quizAt db1 sid = none)
    (h2 : quizAt db2 sid = some (.quiz q2)) (h2c : q2.completed = true)
    (h3 : quizAt db3 sid = some (.quiz q3)) (h3c : q3.completed = false)
    (h3i : q3.questions.length ≤ q3.current_index)
    (h4e : session_exists db4 sid = true)
    (h4s : optTruthy (get_session_subject db4 sid) = false) :
    submit_quiz_answer db1 sid (some a) now =
      (.resp 400 (errBody "No active quiz found"), db1) ∧
    submit_quiz_answer db2 sid (some a) now =
      (.resp 400 (errBody "No active quiz found"), db2) ∧
    submit_quiz_answer db3 sid (some a) now =
      (.resp 400 (errBody "Quiz already finished"), db3) ∧
    start_quiz db4 sid qs now =
      (.resp 400 (errBody "Session has no selected subject. Please start a new chat."),
       db4) :=
  ⟨submit_no_quiz db1 sid a now hsid h1,
   submit_completed db2 sid q2 a now hsid h2 h2c,
   submit_finished db3 sid q3 a now hsid h3 h3c h3i,
   start_no_subject db4 sid qs now hsid h4e h4s⟩

/-- Witness for C3 on concrete databases: no quiz, completed quiz, index past
the end, and a session without a subject. -/
theorem quiz_precondition_failures_no_mutation_witness :
    quizAt dbSubj "s" = none ∧
    quizAt (dbQuiz ⟨[qA, qB], 2, 1, true, []⟩) "s" =
      some (.quiz ⟨[qA, qB], 2, 1, true, []⟩) ∧
    quizAt (dbQuiz ⟨[qA, qB], 2, 1, false, []⟩) "s" =
      some (.quiz ⟨[qA, qB], 2, 1, false, []⟩) ∧
    session_exists (dbWith none) "s" = true ∧
    optTruthy (get_session_subject (dbWith none) "s") = false ∧
    (submit_quiz_answer dbSubj "s" (some 1) 7 =
      (.resp 400 (errBody "No active quiz found"), dbSubj) ∧
    submit_quiz_answer (dbQuiz ⟨[qA, qB], 2, 1, true, []⟩) "s" (some 1) 7 =
      (.resp 400 (errBody "No active quiz found"), dbQuiz ⟨[qA, qB], 2, 1, true, []⟩) ∧
    submit_quiz_answer (dbQuiz ⟨[qA, qB], 2, 1, false, []⟩) "s" (some 1) 7 =
      (.resp 400 (errBody "Quiz already finished"), dbQuiz ⟨[qA, qB], 2, 1, false, []⟩) ∧
    start_quiz (dbWith none) "s" [qA, qB] 7 =
      (.resp 400 (errBody "Session has no selected subject. Please start a new chat."),
       dbWith none)) :=
  ⟨rfl, rfl, rfl, rfl, rfl,
   quiz_precondition_failures_no_mutation dbSubj (dbQuiz ⟨[qA, qB], 2, 1, true, []⟩)
     (dbQuiz ⟨[qA, qB], 2, 1, false, []⟩) (dbWith none) "s" 1 [qA, qB]
     ⟨[qA, qB], 2, 1, true, []⟩ ⟨[qA, qB], 2, 1, false, []⟩ 7
     (by simp) rfl rfl rfl rfl rfl (by simp [dbWith]) rfl rfl⟩

/-- Claim C4: on an existing session, updateMetadataKey returns true, and an
immediately following getMetadata shows exactly the new value at that key
while every other key's value is unchanged (shallow per-key replace); on a
missing session it returns false and writes nothing. -/
theorem update_metadata_then_get (db db2 : DB) (sid sid2 k : String) (v : MVal)
    (now : Nat) (hex : session_exists db sid = true)
    (hne : session_exists db2 sid2 = false) :
    (update_session_metadata db sid k v now).1 = true ∧
    docGet (get_session_metadata (update_session_metadata db sid k v now).2 sid) k =
      some v ∧
    (∀ k2, k2 ≠ k →
      docGet (get_session_metadata (update_session_metadata db sid k v now).2 sid) k2 =
        docGet (get_session_metadata db sid) k2) ∧
    update_session_metadata db2 sid2 k v now = (false, db2) := by
  have hfind : findSession db2 sid2 = none := by
    unfold session_exists at hne
    exact Option.not_isSome_iff_eq_none.mp (by simp [hne])
  refine ⟨usm_ret_true db sid k v now hex, ?_, ?_,
    usm_not_found db2 sid2 k v now hfind⟩
  · rw [usm_get_self db sid k v now hex, docGet_docSet_self]
  · intro k2 hk2
    rw [usm_get_self db sid k v now hex, docGet_docSet_other _ _ _ _ hk2]

/-- Witness for C4: write a fresh key next to an existing subject key and
read both back; a write against a missing session id fails. -/
theorem update_metadata_then_get_witness :
    session_exists dbSubj "s" = true ∧ session_exists dbNone "s" = false ∧
    ((update_session_metadata dbSubj "s" "color" (.jval (.int 3)) 5).1 = true ∧
     docGet (get_session_metadata
        (update_session_metadata dbSubj "s" "color" (.jval (.int 3)) 5).2 "s")
        "color" = some (.jval (.int 3)) ∧
     (∀ k2, k2 ≠ "color" →
       docGet (get_session_metadata
          (update_session_metadata dbSubj "s" "color" (.jval (.int 3)) 5).2 "s") k2 =
         docGet (get_session_metadata dbSubj "s") k2) ∧
     update_session_metadata dbNone "s" "color" (.jval (.int 3)) 5 = (false, dbNone)) :=
  ⟨rfl, rfl,
   update_metadata_then_get dbSubj dbNone "s" "s" "color" (.jval (.int 3)) 5 rfl rfl⟩

/-- Claim C6: deleteSession of a missing session returns false with no side
effects; of an existing session it removes every one of the session's
messages and the session row and returns true, after which sessionExists is
false (and getMessages on that id yields nothing). -/
theorem delete_session_spec (db db2 : DB) (sid sid2 : String) (limit : Nat)
    (hne : session_exists db sid = false) (hex : session_exists db2 sid2 = true) :
    delete_session db sid = (false, db) ∧
    (delete_session db2 sid2).1 = true ∧
    session_exists (delete_session db2 sid2).2 sid2 = false ∧
    (delete_session db2 sid2).2.messages.filter (fun m => m.session_id == sid2) = [] ∧
    get_session_messages (delete_session db2 sid2).2 sid2 limit = [] := by
  refine ⟨by simp [delete_session, hne], by simp [delete_session, hex], ?_, ?_, ?_⟩
  · simp only [delete_session, hex, if_true]
    unfold session_exists findSession
    simp [find?_filter_not]
  · simp only [delete_session, hex, if_true]
    simp [filter_not_filter]
  · simp only [get_session_messages, delete_session, hex, if_true]
    simp [filter_not_filter]

/-- Witness for C6: delete a missing id, then a real session that owns two
messages. -/
theorem delete_session_spec_witness :
    session_exists dbNone "s" = false ∧
    session_exists (⟨[⟨"y", none, 0, 0, none⟩],
      [⟨1, "y", "user", "hi", none, 3⟩, ⟨2, "y", "assistant", "yo", some "x", 4⟩], 3⟩ : DB)
      "y" = true ∧
    (delete_session dbNone "s" = (false, dbNone) ∧
     (delete_session (⟨[⟨"y", none, 0, 0, none⟩],
        [⟨1, "y", "user", "hi", none, 3⟩, ⟨2, "y", "assistant", "yo", some "x", 4⟩], 3⟩ : DB)
        "y").1 = true ∧
     session_exists (delete_session (⟨[⟨"y", none, 0, 0, none⟩],
        [⟨1, "y", "user", "hi", none, 3⟩, ⟨2, "y", "assistant", "yo", some "x", 4⟩], 3⟩ : DB)
        "y").2 "y" = false ∧
     (delete_session (⟨[⟨"y", none, 0, 0, none⟩],
        [⟨1, "y", "user", "hi", none, 3⟩, ⟨2, "y", "assistant", "yo", some "x", 4⟩], 3⟩ : DB)
        "y").2.messages.filter (fun m => m.session_id == "y") = [] ∧
     get_session_messages (delete_session (⟨[⟨"y", none, 0, 0, none⟩],
        [⟨1, "y", "user", "hi", none, 3⟩, ⟨2, "y", "assistant", "yo", some "x", 4⟩], 3⟩ : DB)
        "y").2 "y" 20 = []) :=
  ⟨rfl, rfl,
   delete_session_spec dbNone (⟨[⟨"y", none, 0, 0, none⟩],
     [⟨1, "y", "user", "hi", none, 3⟩, ⟨2, "y", "assistant", "yo", some "x", 4⟩], 3⟩ : DB)
     "s" "y" 20 rfl rfl⟩

/-- Claim C7: getMetadata returns the stored JSON document verbatim when one
is stored and parseable, and the empty object in every other case (missing
session, NULL column, unparseable content); no parse error ever reaches the
caller (the operation is a total function). -/
theorem get_metadata_cases (db1 db2 db3 db4 : DB) (sid1 sid2 sid3 sid4 : String)
    (s2 s3 s4 : SessionRow) (d : Doc)
    (h1 : findSession db1 sid1 = none)
    (h2 : findSession db2 sid2 = some s2) (h2m : s2.metadata = none)
    (h3 : findSession db3 sid3 = some s3) (h3m : s3.metadata = some none)
    (h4 : findSession db4 sid4 = some s4) (h4m : s4.metadata = some (some d)) :
    get_session_metadata db1 sid1 = [] ∧
    get_session_metadata db2 sid2 = [] ∧
    get_session_metadata db3 sid3 = [] ∧
    get_session_metadata db4 sid4 = d := by
  unfold get_session_metadata
  rw [h1, h2, h3, h4]
  simp [parseMeta, h2m, h3m, h4m]

/-- Witness for C7: a missing session, a NULL metadata column, an
unparseable stored document, and a stored parseable document. -/
theorem get_metadata_cases_witness :
    findSession dbNone "s" = none ∧
    findSession (dbWith none) "s" = some ⟨"s", none, 0, 0, none⟩ ∧
    findSession (dbWith (some none)) "s" = some ⟨"s", none, 0, 0, some none⟩ ∧
    findSession dbSubj "s" =
      some ⟨"s", none, 0, 0, some (some [("subject", .jval (.str "Biology"))])⟩ ∧
    (get_session_metadata dbNone "s" = [] ∧
     get_session_metadata (dbWith none) "s" = [] ∧
     get_session_metadata (dbWith (some none)) "s" = [] ∧
     get_session_metadata dbSubj "s" = [("subject", .jval (.str "Biology"))]) :=
  ⟨rfl, rfl, rfl, rfl,
   get_metadata_cases dbNone (dbWith none) (dbWith (some none)) dbSubj "s" "s" "s" "s"
     ⟨"s", none, 0, 0, none⟩ ⟨"s", none, 0, 0, some none⟩
     ⟨"s", none, 0, 0, some (some [("subject", .jval (.str "Biology"))])⟩
     [("subject", .jval (.str "Biology"))] rfl rfl rfl rfl rfl rfl rfl⟩

/-- Claim C9: no quiz operation reads or writes the message log: the
messages relation, and hence the result of getMessages on any session and
any limit, is identical before and after start, submitAnswer and advance. -/
theorem quiz_ops_message_frame (db : DB) (sid sid2 : String) (qs : List Question)
    (a : Option Int) (now limit : Nat) :
    (start_quiz db sid qs now).2.messages = db.messages ∧
    (submit_quiz_answer db sid a now).2.messages = db.messages ∧
    (next_question db sid now).2.messages = db.messages ∧
    get_session_messages (start_quiz db sid qs now).2 sid2 limit =
      get_session_messages db sid2 limit ∧
    get_session_messages (submit_quiz_answer db sid a now).2 sid2 limit =
      get_session_messages db sid2 limit ∧
    get_session_messages (next_question db sid now).2 sid2 limit =
      get_session_messages db sid2 limit :=
  ⟨start_messages db sid qs now, submit_messages db sid a now, next_messages db sid now,
   gsm_congr _ db sid2 limit (start_messages db sid qs now),
   gsm_congr _ db sid2 limit (submit_messages db sid a now),
   gsm_congr _ db sid2 limit (next_messages db sid now)⟩

/-- Claim C10: a completed quiz stays completed.  submitAnswer on a
completed quiz is rejected without any mutation, while advance on a
completed quiz is still accepted: it increments `current_index` further past
the question count, keeps `completed = true`, and returns the completion
summary again rather than an error. -/
theorem completed_quiz_is_sticky (db : DB) (sid : String) (q : QuizState) (a : Int)
    (now : Nat) (hsid : sid ≠ "") (hex : session_exists db sid = true)
    (hq : quizAt db sid = some (.quiz q)) (hc : q.completed = true)
    (hge : q.questions.length ≤ q.current_index) :
    submit_quiz_answer db sid (some a) now =
      (.resp 400 (errBody "No active quiz found"), db) ∧
    (next_question db sid now).1 =
      .resp 200 (completionBody q.score q.questions.length) ∧
    quizAt (next_question db sid now).2 sid =
      some (.quiz { q with current_index := q.current_index + 1, completed := true }) := by
  have hge1 : q.questions.length ≤ q.current_index + 1 := Nat.le_succ_of_le hge
  obtain ⟨hresp, hex2, hstate⟩ := next_step_done db sid q now hsid hex hq hge1
  exact ⟨submit_completed db sid q a now hsid hq hc, by rw [hresp], hstate⟩

/-- Witness for C10: a finished two-question quiz; submit is rejected,
advance answers the summary again and pushes the index to 3. -/
theorem completed_quiz_is_sticky_witness :
    session_exists (dbQuiz ⟨[qA, qB], 2, 1, true, []⟩) "s" = true ∧
    quizAt (dbQuiz ⟨[qA, qB], 2, 1, true, []⟩) "s" =
      some (.quiz ⟨[qA, qB], 2, 1, true, []⟩) ∧
    (submit_quiz_answer (dbQuiz ⟨[qA, qB], 2, 1, true, []⟩) "s" (some 1) 7 =
      (.resp 400 (errBody "No active quiz found"), dbQuiz ⟨[qA, qB], 2, 1, true, []⟩) ∧
     (next_question (dbQuiz ⟨[qA, qB], 2, 1, true, []⟩) "s" 7).1 =
       .resp 200 (completionBody 1 2) ∧
     quizAt (next_question (dbQuiz ⟨[qA, qB], 2, 1, true, []⟩) "s" 7).2 "s" =
       some (.quiz ⟨[qA, qB], 3, 1, true, []⟩)) :=
  ⟨rfl, rfl,
   completed_quiz_is_sticky (dbQuiz ⟨[qA, qB], 2, 1, true, []⟩) "s"
     ⟨[qA, qB], 2, 1, true, []⟩ 1 7 (by simp) rfl rfl rfl (by simp [qA, qB])⟩

/-! ### Iterated-operation lemmas for C1 and C2 -/

theorem submitN_state (sid : String) (qs : List Question) (i : Nat) (cq : Question)
    (now : Nat) (hsid : sid ≠ "") (hi : i < qs.length) (hcq : qs[i]? = some cq)
    (as : List Int) :
    ∀ db s0 h0, session_exists db sid = true →
      quizAt db sid = some (.quiz ⟨qs, i, s0, false, h0⟩) →
      session_exists (submitN sid now as db) sid = true ∧
      quizAt (submitN sid now as db) sid =
        some (.quiz ⟨qs, i,
          s0 + (as.filter (fun x => x == cq.correct_index)).length, false,
          h0 ++ as.map (fun x => ⟨i, x, x == cq.correct_index⟩)⟩) := by
  induction as with
  | nil =>
    intro db s0 h0 hex hq
    simpa [submitN] using ⟨hex, hq⟩
  | cons a rest ih =>
    intro db s0 h0 hex hq
    obtain ⟨cq2, hcq2, heq, hex2, hstate⟩ :=
      submit_step db sid ⟨qs, i, s0, false, h0⟩ a now hsid hex hq rfl hi
    have hcq2' : qs[i]? = some cq2 := hcq2
    have hcqeq : cq2 = cq := by
      rw [hcq] at hcq2'
      exact (Option.some.inj hcq2').symm
    subst hcqeq
    have hstate' : quizAt (submit_quiz_answer db sid (some a) now).2 sid =
        some (.quiz ⟨qs, i, (if a == cq2.correct_index then s0 + 1 else s0), false,
          h0 ++ [⟨i, a, a == cq2.correct_index⟩]⟩) := hstate
    obtain ⟨hex3, hq3⟩ := ih (submit_quiz_answer db sid (some a) now).2
      (if a == cq2.correct_index then s0 + 1 else s0)
      (h0 ++ [⟨i, a, a == cq2.correct_index⟩]) hex2 hstate'
    have hstep : submitN sid now (a :: rest) db =
        submitN sid now rest (submit_quiz_answer db sid (some a) now).2 := rfl
    have hscore : (if a == cq2.correct_index then s0 + 1 else s0) +
        (rest.filter (fun x => x == cq2.correct_index)).length =
        s0 + ((a :: rest).filter (fun x => x == cq2.correct_index)).length := by
      by_cases h : a == cq2.correct_index <;> (simp [List.filter_cons, h]; try omega)
    have hhist : (h0 ++ [(⟨i, a, a == cq2.correct_index⟩ : HistEntry)]) ++
        rest.map (fun x => (⟨i, x, x == cq2.correct_index⟩ : HistEntry)) =
        h0 ++ (a :: rest).map (fun x => (⟨i, x, x == cq2.correct_index⟩ : HistEntry)) := by
      simp
    refine ⟨by rw [hstep]; exact hex3, ?_⟩
    rw [hstep, hq3, hscore, hhist]

theorem advanceN_state (db : DB) (sid : String) (qs : List Question) (s0 : Nat)
    (h0 : List HistEntry) (now : Nat) (hsid : sid ≠ "")
    (hex : session_exists db sid = true)
    (hq : quizAt db sid = some (.quiz ⟨qs, 0, s0, false, h0⟩)) :
    ∀ k, k < qs.length →
      session_exists (advanceN sid now k db) sid = true ∧
      quizAt (advanceN sid now k db) sid = some (.quiz ⟨qs, k, s0, false, h0⟩) := by
  intro k
  induction k with
  | zero => intro _; exact ⟨hex, hq⟩
  | succ k ih =>
    intro hk
    obtain ⟨hexk, hqk⟩ := ih (Nat.lt_of_succ_lt hk)
    obtain ⟨nq, hnq, heq, hex2, hstate⟩ :=
      next_step_mid (advanceN sid now k db) sid ⟨qs, k, s0, false, h0⟩ now hsid hexk hqk hk
    exact ⟨hex2, hstate⟩

/-! ### Claim theorems, continued -/

/-- Claim C1: starting from a freshly started quiz over `qs` (index 0, score
0, not completed), calling advance k times leaves the quiz uncompleted for
every k below N = number of questions, with the k-th call returning question
k together with its index and the total count, and the N-th call returns the
completion summary (score, total = N, completed = true) and persists
`completed = true`. -/
theorem quiz_advance_completes_exactly_at_N (db : DB) (sid : String)
    (qs : List Question) (now : Nat) (hsid : sid ≠ "")
    (hex : session_exists db sid = true) (hN : 0 < qs.length)
    (hq : quizAt db sid = some (.quiz ⟨qs, 0, 0, false, []⟩)) :
    (∀ k, 0 < k → k < qs.length →
      quizAt (advanceN sid now k db) sid = some (.quiz ⟨qs, k, 0, false, []⟩) ∧
      ∃ nq, qs[k]? = some nq ∧
        (next_question (advanceN sid now (k - 1) db) sid now).1 =
          .resp 200 (nextQuestionBody nq k qs.length)) ∧
    (next_question (advanceN sid now (qs.length - 1) db) sid now).1 =
      .resp 200 (completionBody 0 qs.length) ∧
    quizAt (advanceN sid now qs.length db) sid =
      some (.quiz ⟨qs, qs.length, 0, true, []⟩) := by
  have hstates := advanceN_state db sid qs 0 [] now hsid hex hq
  have hlen : qs.length - 1 + 1 = qs.length := Nat.succ_pred_eq_of_pos hN
  refine ⟨?_, ?_, ?_⟩
  · intro k hk0 hk
    refine ⟨(hstates k hk).2, ?_⟩
    obtain ⟨hexk, hqk⟩ := hstates (k - 1) (by omega)
    obtain ⟨nq, hnq, heq, _, _⟩ :=
      next_step_mid (advanceN sid now (k - 1) db) sid ⟨qs, k - 1, 0, false, []⟩ now hsid
        hexk hqk (by show k - 1 + 1 < qs.length; omega)
    have hk1 : k - 1 + 1 = k := by omega
    rw [hk1] at hnq heq
    exact ⟨nq, hnq, by rw [heq]⟩
  · obtain ⟨hexk, hqk⟩ := hstates (qs.length - 1) (by omega)
    have hdone := next_step_done (advanceN sid now (qs.length - 1) db) sid
      ⟨qs, qs.length - 1, 0, false, []⟩ now hsid hexk hqk
      (by show qs.length ≤ qs.length - 1 + 1; omega)
    rw [hdone.1]
  · obtain ⟨hexk, hqk⟩ := hstates (qs.length - 1) (by omega)
    have hdone := next_step_done (advanceN sid now (qs.length - 1) db) sid
      ⟨qs, qs.length - 1, 0, false, []⟩ now hsid hexk hqk
      (by show qs.length ≤ qs.length - 1 + 1; omega)
    have hadv : advanceN sid now qs.length db =
        (next_question (advanceN sid now (qs.length - 1) db) sid now).2 := by
      conv_lhs => rw [← hlen]
      rfl
    rw [hadv]
    have hstate := hdone.2.2
    rw [hstate]
    simp [hlen]

/-- Witness for C1: a two-question quiz just started on session "s". -/
theorem quiz_advance_completes_exactly_at_N_witness :
    session_exists (dbQuiz ⟨[qA, qB], 0, 0, false, []⟩) "s" = true ∧
    0 < ([qA, qB] : List Question).length ∧
    quizAt (dbQuiz ⟨[qA, qB], 0, 0, false, []⟩) "s" =
      some (.quiz ⟨[qA, qB], 0, 0, false, []⟩) ∧
    ((∀ k, 0 < k → k < ([qA, qB] : List Question).length →
      quizAt (advanceN "s" 7 k (dbQuiz ⟨[qA, qB], 0, 0, false, []⟩)) "s" =
        some (.quiz ⟨[qA, qB], k, 0, false, []⟩) ∧
      ∃ nq, ([qA, qB] : List Question)[k]? = some nq ∧
        (next_question (advanceN "s" 7 (k - 1) (dbQuiz ⟨[qA, qB], 0, 0, false, []⟩))
            "s" 7).1 =
          .resp 200 (nextQuestionBody nq k ([qA, qB] : List Question).length)) ∧
    (next_question (advanceN "s" 7 (([qA, qB] : List Question).length - 1)
        (dbQuiz ⟨[qA, qB], 0, 0, false, []⟩)) "s" 7).1 =
      .resp 200 (completionBody 0 ([qA, qB] : List Question).length) ∧
    quizAt (advanceN "s" 7 ([qA, qB] : List Question).length
        (dbQuiz ⟨[qA, qB], 0, 0, false, []⟩)) "s" =
      some (.quiz ⟨[qA, qB], ([qA, qB] : List Question).length, 0, true, []⟩)) :=
  ⟨rfl, by decide, rfl,
   quiz_advance_completes_exactly_at_N (dbQuiz ⟨[qA, qB], 0, 0, false, []⟩) "s"
     [qA, qB] 7 (by simp) rfl (by decide) rfl⟩

/-- Claim C2: over any sequence of submitAnswer calls on an active quiz, the
stored score grows by exactly the number of calls whose selected index
equals the current question's correct_index (compared as integers), and
exactly one history entry `{question_index, selected, correct}` is appended
per call; duplicate submissions for the same index are not deduplicated and
count again toward score and history. -/
theorem submit_score_and_history (db : DB) (sid : String) (qs : List Question)
    (i s0 : Nat) (h0 : List HistEntry) (as : List Int) (now : Nat)
    (hsid : sid ≠ "") (hex : session_exists db sid = true)
    (hq : quizAt db sid = some (.quiz ⟨qs, i, s0, false, h0⟩)) (hi : i < qs.length) :
    ∃ cq, qs[i]? = some cq ∧
      quizAt (submitN sid now as db) sid =
        some (.quiz ⟨qs, i,
          s0 + (as.filter (fun x => x == cq.correct_index)).length, false,
          h0 ++ as.map (fun x => ⟨i, x, x == cq.correct_index⟩)⟩) := by
  obtain ⟨cq, hcq⟩ : ∃ cq, qs[i]? = some cq := ⟨_, List.getElem?_eq_getElem hi⟩
  exact ⟨cq, hcq, (submitN_state sid qs i cq now hsid hi hcq as db s0 h0 hex hq).2⟩

/-- Witness for C2: three submissions on question 0 of a fresh quiz, two of
them (duplicated) correct: score 2 and three history entries. -/
theorem submit_score_and_history_witness :
    session_exists (dbQuiz ⟨[qA, qB], 0, 0, false, []⟩) "s" = true ∧
    quizAt (dbQuiz ⟨[qA, qB], 0, 0, false, []⟩) "s" =
      some (.quiz ⟨[qA, qB], 0, 0, false, []⟩) ∧
    0 < ([qA, qB] : List Question).length ∧
    (∃ cq, ([qA, qB] : List Question)[0]? = some cq ∧
      quizAt (submitN "s" 7 [1, 0, 1] (dbQuiz ⟨[qA, qB], 0, 0, false, []⟩)) "s" =
        some (.quiz ⟨[qA, qB], 0,
          0 + (([1, 0, 1] : List Int).filter (fun x => x == cq.correct_index)).length,
          false,
          [] ++ ([1, 0, 1] : List Int).map (fun x => ⟨0, x, x == cq.correct_index⟩)⟩)) :=
  ⟨rfl, rfl, by decide,
   submit_score_and_history (dbQuiz ⟨[qA, qB], 0, 0, false, []⟩) "s" [qA, qB] 0 0 []
     [1, 0, 1] 7 (by simp) rfl rfl (by decide)⟩

/-- Claim C5: for every sequence of appendMessage calls on one session made
at non-decreasing clock values, getMessages returns exactly the most recent
`limit` messages reordered oldest-first, and thus the full sequence in the
exact order submitted whenever `limit` covers the count; the ordering key is
the insertion timestamp with ties broken by the autoincrement message id. -/
theorem messages_in_submission_order (db0 : DB) (sid : String)
    (calls : List AppendCall) (limit : Nat) (h0 : db0.messages = [])
    (hmono : calls.Pairwise (fun a b => a.time ≤ b.time)) :
    get_session_messages (appendAll db0 sid calls) sid limit =
      (calls.map callOut).drop (calls.length - limit) ∧
    (calls.length ≤ limit →
      get_session_messages (appendAll db0 sid calls) sid limit = calls.map callOut) := by
  have hmsgs : (appendAll db0 sid calls).messages = mkRows sid db0.next_msg_id calls := by
    have h := (appendAll_messages db0 sid calls).1
    rw [h0] at h
    simpa using h
  have hwf : (appendAll db0 sid calls).messages.Pairwise msgLT := by
    rw [hmsgs]
    exact mkRows_pairwise sid db0.next_msg_id calls hmono
  have h := get_session_messages_of_sorted (appendAll db0 sid calls) sid limit hwf
  rw [hmsgs, mkRows_filter_self, mkRows_length] at h
  have hmain : get_session_messages (appendAll db0 sid calls) sid limit =
      (calls.map callOut).drop (calls.length - limit) := by
    rw [h, List.map_drop, mkRows_map_out]
  refine ⟨hmain, fun hle => ?_⟩
  rw [hmain, Nat.sub_eq_zero_of_le hle, List.drop_zero]

/-- Witness for C5: three appends (two sharing a timestamp) on an empty
store, read back with a limit of 2. -/
theorem messages_in_submission_order_witness :
    (dbNone.messages = []) ∧
    ([⟨"user", "a", none, 5⟩, ⟨"assistant", "b", some "x", 5⟩,
      ⟨"user", "c", none, 7⟩] : List AppendCall).Pairwise
        (fun a b => a.time ≤ b.time) ∧
    (get_session_messages (appendAll dbNone "s"
        [⟨"user", "a", none, 5⟩, ⟨"assistant", "b", some "x", 5⟩,
         ⟨"user", "c", none, 7⟩]) "s" 2 =
      (([⟨"user", "a", none, 5⟩, ⟨"assistant", "b", some "x", 5⟩,
         ⟨"user", "c", none, 7⟩] : List AppendCall).map callOut).drop
        (([⟨"user", "a", none, 5⟩, ⟨"assistant", "b", some "x", 5⟩,
           ⟨"user", "c", none, 7⟩] : List AppendCall).length - 2) ∧
     (([⟨"user", "a", none, 5⟩, ⟨"assistant", "b", some "x", 5⟩,
        ⟨"user", "c", none, 7⟩] : List AppendCall).length ≤ 2 →
      get_session_messages (appendAll dbNone "s"
          [⟨"user", "a", none, 5⟩, ⟨"assistant", "b", some "x", 5⟩,
           ⟨"user", "c", none, 7⟩]) "s" 2 =
        ([⟨"user", "a", none, 5⟩, ⟨"assistant", "b", some "x", 5⟩,
          ⟨"user", "c", none, 7⟩] : List AppendCall).map callOut)) :=
  ⟨rfl, by decide,
   messages_in_submission_order dbNone "s"
     [⟨"user", "a", none, 5⟩, ⟨"assistant", "b", some "x", 5⟩, ⟨"user", "c", none, 7⟩]
     2 rfl (by decide)⟩

/-- Counterexample to C8 as stated: a non-completing advance does not return
only the next question's text, options, index and total — its payload also
carries a "completed" field (set to False), a key distinct from the four the
claim lists.  (The claim's central property, withholding correct_index, does
hold; see the amended theorem.) -/
theorem advance_response_has_completed_field :
    (next_question (dbQuiz ⟨[qA, qB], 0, 0, false, []⟩) "s" 7).1 =
      .resp 200 (nextQuestionBody qB 1 2) ∧
    docGet (nextQuestionBody qB 1 2) "completed" = some (.jval (.bool false)) ∧
    ("completed" ∉ (["question", "options", "index", "total"] : List String)) :=
  ⟨rfl, rfl, by decide⟩

/-- Claim C8 (amended): the responses of start and advance never contain
correct_index.  start's success payload is exactly the first question's
text, options, index 0 and the total count; a non-completing advance's
payload is exactly a completed = false flag together with the next
question's text, options, index and total; correct_index appears in
submitAnswer's payload (and only there among the three). -/
theorem responses_withhold_correct_index
    (db1 db2 db3 : DB) (sid : String) (qs : List Question) (q0 nq cq : Question)
    (q2 q3 : QuizState) (a : Int) (now : Nat) (hsid : sid ≠ "")
    (hex1 : session_exists db1 sid = true)
    (hsub : optTruthy (get_session_subject db1 sid) = true)
    (hq0 : qs[0]? = some q0)
    (hex2 : session_exists db2 sid = true)
    (hq2 : quizAt db2 sid = some (.quiz q2))
    (hlt2 : q2.current_index + 1 < q2.questions.length)
    (hnq : q2.questions[q2.current_index + 1]? = some nq)
    (hex3 : session_exists db3 sid = true)
    (hq3 : quizAt db3 sid = some (.quiz q3))
    (hc3 : q3.completed = false)
    (hi3 : q3.current_index < q3.questions.length)
    (hcq : q3.questions[q3.current_index]? = some cq) :
    (start_quiz db1 sid qs now).1 =
      .resp 200 (questionBody q0 0 (qs.take 10).length) ∧
    (next_question db2 sid now).1 =
      .resp 200 (nextQuestionBody nq (q2.current_index + 1) q2.questions.length) ∧
    (∀ q i t, docGet (questionBody q i t) "correct_index" = none) ∧
    (∀ q i t, docGet (nextQuestionBody q i t) "correct_index" = none) ∧
    (submit_quiz_answer db3 sid (some a) now).1 =
      .resp 200 (submitBody (a == cq.correct_index) cq.correct_index
        (cq.explanation.getD "No explanation provided.")
        (if a == cq.correct_index then q3.score + 1 else q3.score)) ∧
    (∀ c ci e sc, docGet (submitBody c ci e sc) "correct_index" =
      some (.jval (.int ci))) := by
  obtain ⟨heq1, _, _⟩ := start_success db1 sid qs q0 now hsid hex1 hsub hq0
  obtain ⟨nq2, hnq2, heq2, _, _⟩ := next_step_mid db2 sid q2 now hsid hex2 hq2 hlt2
  obtain ⟨cq2, hcq2, heq3, _, _⟩ := submit_step db3 sid q3 a now hsid hex3 hq3 hc3 hi3
  have hnqeq : nq2 = nq := by
    rw [hnq] at hnq2
    exact (Option.some.inj hnq2).symm
  have hcqeq : cq2 = cq := by
    rw [hcq] at hcq2
    exact (Option.some.inj hcq2).symm
  subst hnqeq
  subst hcqeq
  refine ⟨by rw [heq1], by rw [heq2], ?_, ?_, by rw [heq3], ?_⟩
  · intro q i t
    simp [questionBody, docGet]
  · intro q i t
    simp [nextQuestionBody, questionBody, docGet]
  · intro c ci e sc
    simp [submitBody, docGet]

/-- Witness for the amended C8: start on a session with a subject, a
non-completing advance and a submit on a fresh two-question quiz. -/
theorem responses_withhold_correct_index_witness :
    session_exists dbSubj "s" = true ∧
    optTruthy (get_session_subject dbSubj "s") = true ∧
    ([qA, qB] : List Question)[0]? = some qA ∧
    session_exists (dbQuiz ⟨[qA, qB], 0, 0, false, []⟩) "s" = true ∧
    quizAt (dbQuiz ⟨[qA, qB], 0, 0, false, []⟩) "s" =
      some (.quiz ⟨[qA, qB], 0, 0, false, []⟩) ∧
    ((start_quiz dbSubj "s" [qA, qB] 7).1 =
      .resp 200 (questionBody qA 0 (([qA, qB] : List Question).take 10).length) ∧
     (next_question (dbQuiz ⟨[qA, qB], 0, 0, false, []⟩) "s" 7).1 =
       .resp 200 (nextQuestionBody qB (0 + 1) ([qA, qB] : List Question).length) ∧
     (∀ q i t, docGet (questionBody q i t) "correct_index" = none) ∧
     (∀ q i t, docGet (nextQuestionBody q i t) "correct_index" = none) ∧
     (submit_quiz_answer (dbQuiz ⟨[qA, qB], 0, 0, false, []⟩) "s" (some 1) 7).1 =
       .resp 200 (submitBody ((1 : Int) == qA.correct_index) qA.correct_index
         (qA.explanation.getD "No explanation provided.")
         (if (1 : Int) == qA.correct_index then 0 + 1 else 0)) ∧
     (∀ c ci e sc, docGet (submitBody c ci e sc) "correct_index" =
       some (.jval (.int ci)))) :=
  ⟨rfl, rfl, rfl, rfl, rfl,
   responses_withhold_correct_index dbSubj (dbQuiz ⟨[qA, qB], 0, 0, false, []⟩)
     (dbQuiz ⟨[qA, qB], 0, 0, false, []⟩) "s" [qA, qB] qA qB qA
     ⟨[qA, qB], 0, 0, false, []⟩ ⟨[qA, qB], 0, 0, false, []⟩ 1 7
     (by simp) rfl rfl rfl rfl rfl (by decide) rfl rfl rfl rfl (by decide) rfl⟩
